import Mathlib

set_option maxHeartbeats 1000000

/-!
Verification development for `src/framework/results/data/data_container.hpp`
of qiskit-aer: the `AER::DataContainer<T>` result-accumulation container.

The container owns three string-keyed maps (`additional_data_`,
`pershot_snapshots_`, `average_snapshots_`, all `stringmap_t`, i.e. an
unordered string-keyed map) plus an `enabled_` gate.  We embed each map as an
association list bundled with a no-duplicate-keys invariant; `operator[]`
assignment is "replace in place or append", and lookup is first-match, which
coincides with the C++ map's observable content.
-/

namespace AER

/-- Association-list lookup (first entry with the given key); this is how the
C++ string-keyed map's content is observed. -/
def find {V : Type} : List (String × V) → String → Option V
  | [], _ => none
  | (k0, v) :: rest, k => if k0 = k then some v else find rest k

/-- `m[k] = v` on an association list: replace the entry in place when the key
is present, append a fresh entry otherwise (C++ `operator[]` assignment on a
string-keyed map). -/
def setE {V : Type} : List (String × V) → String → V → List (String × V)
  | [], k, v => [(k, v)]
  | (k0, v0) :: rest, k, v =>
      if k0 = k then (k, v) :: rest else (k0, v0) :: setE rest k v

/-- The keys of an association list, in entry order. -/
def keys {V : Type} (l : List (String × V)) : List String := l.map Prod.fst

theorem find_eq_none {V : Type} (l : List (String × V)) (k : String) :
    find l k = none ↔ k ∉ keys l := by
  induction l with
  | nil => simp [find, keys]
  | cons hd tl ih =>
      obtain ⟨k0, v0⟩ := hd
      by_cases h : k0 = k
      · subst h
        simp [find, keys]
      · simp [find, keys, h, ih, Ne.symm h]

theorem find_of_mem_keys {V : Type} {l : List (String × V)} {k : String}
    (h : k ∈ keys l) : ∃ v, find l k = some v := by
  cases hf : find l k with
  | none => exact absurd h ((find_eq_none l k).mp hf)
  | some v => exact ⟨v, rfl⟩

theorem mem_keys_of_find {V : Type} {l : List (String × V)} {k : String} {v : V}
    (h : find l k = some v) : k ∈ keys l := by
  by_contra hmem
  rw [(find_eq_none l k).mpr hmem] at h
  exact Option.noConfusion h

theorem ne_nil_of_find {V : Type} {l : List (String × V)} {k : String} {v : V}
    (h : find l k = some v) : l ≠ [] := by
  intro hl
  subst hl
  exact Option.noConfusion h

theorem find_setE {V : Type} (l : List (String × V)) (k : String) (v : V)
    (k2 : String) :
    find (setE l k v) k2 = if k = k2 then some v else find l k2 := by
  induction l with
  | nil =>
      by_cases h : k = k2 <;> simp [setE, find, h]
  | cons hd tl ih =>
      obtain ⟨k0, v0⟩ := hd
      by_cases h0 : k0 = k
      · subst h0
        by_cases h2 : k0 = k2 <;> simp [setE, find, h2]
      · by_cases h2 : k0 = k2
        · subst h2
          have hk : ¬ k = k0 := fun h => h0 h.symm
          simp [setE, find, h0, hk]
        · simp [setE, find, h0, h2, ih]

theorem keys_cons {V : Type} (k0 : String) (v0 : V) (l : List (String × V)) :
    keys ((k0, v0) :: l) = k0 :: keys l := rfl

theorem keys_setE {V : Type} (l : List (String × V)) (k : String) (v : V) :
    keys (setE l k v) = if k ∈ keys l then keys l else keys l ++ [k] := by
  induction l with
  | nil => simp [setE, keys]
  | cons hd tl ih =>
      obtain ⟨k0, v0⟩ := hd
      by_cases h0 : k0 = k
      · subst h0
        simp [setE, keys_cons]
      · have hne : ¬ k = k0 := fun h => h0 h.symm
        have hstep : setE ((k0, v0) :: tl) k v = (k0, v0) :: setE tl k v := by
          simp [setE, h0]
        rw [hstep, keys_cons, keys_cons, ih]
        by_cases hmem : k ∈ keys tl
        · simp [hmem, hne]
        · simp [hmem, hne]

theorem nodup_keys_setE {V : Type} {l : List (String × V)} (k : String) (v : V)
    (h : (keys l).Nodup) : (keys (setE l k v)).Nodup := by
  rw [keys_setE]
  by_cases hmem : k ∈ keys l
  · simpa [hmem] using h
  · simp only [hmem, if_false]
    simpa [List.nodup_append] using ⟨h, hmem⟩

theorem self_mem_keys_setE {V : Type} (l : List (String × V)) (k : String)
    (v : V) : k ∈ keys (setE l k v) := by
  rw [keys_setE]
  by_cases hmem : k ∈ keys l <;> simp [hmem]

theorem mem_keys_setE_of_mem {V : Type} {l : List (String × V)} {k2 : String}
    (k : String) (v : V) (h : k2 ∈ keys l) : k2 ∈ keys (setE l k v) := by
  rw [keys_setE]
  by_cases hmem : k ∈ keys l <;> simp [hmem, h]

theorem setE_self {V : Type} {l : List (String × V)} {k : String} {v : V}
    (h : find l k = some v) : setE l k v = l := by
  induction l with
  | nil => exact Option.noConfusion h
  | cons hd tl ih =>
      obtain ⟨k0, v0⟩ := hd
      by_cases h0 : k0 = k
      · subst h0
        have hv : v0 = v := by simpa [find] using h
        subst hv
        simp [setE]
      · simp only [find, h0, if_neg h0] at h
        simp [setE, h0, ih h]

theorem setE_setE_same {V : Type} (l : List (String × V)) (k : String)
    (a b : V) : setE (setE l k a) k b = setE l k b := by
  induction l with
  | nil => simp [setE]
  | cons hd tl ih =>
      obtain ⟨k0, v0⟩ := hd
      by_cases h0 : k0 = k
      · subst h0
        simp [setE]
      · simp [setE, h0, ih]

theorem setE_setE_comm {V : Type} {l : List (String × V)} {k k1 : String}
    (v v1 : V) (hk : k ∈ keys l) (hne : k1 ≠ k) :
    setE (setE l k1 v1) k v = setE (setE l k v) k1 v1 := by
  induction l with
  | nil => simp [keys] at hk
  | cons hd tl ih =>
      obtain ⟨k2, v2⟩ := hd
      by_cases h2k : k2 = k
      · subst h2k
        have h21 : ¬ k2 = k1 := fun h => hne h.symm
        simp [setE, h21, hne]
      · by_cases h21 : k2 = k1
        · subst h21
          have hk2 : ¬ k2 = k := h2k
          simp [setE, hk2, hne]
        · have hk' : k ∈ keys tl := by
            rw [keys_cons] at hk
            rcases List.mem_cons.mp hk with h | h
            · exact absurd h.symm h2k
            · exact h
          simp [setE, h2k, h21, ih hk']

theorem setE_of_not_mem {V : Type} {l : List (String × V)} {k : String}
    (v : V) (h : k ∉ keys l) : setE l k v = l ++ [(k, v)] := by
  induction l with
  | nil => simp [setE]
  | cons hd tl ih =>
      obtain ⟨k0, v0⟩ := hd
      rw [keys_cons] at h
      have h0 : ¬ k0 = k := fun he => h (he ▸ List.mem_cons_self k0 (keys tl))
      have htl : k ∉ keys tl := fun he => h (List.mem_cons_of_mem k0 he)
      simp [setE, h0, ih htl]

theorem find_append {V : Type} (l1 l2 : List (String × V)) (k : String) :
    find (l1 ++ l2) k =
      match find l1 k with
      | some v => some v
      | none => find l2 k := by
  induction l1 with
  | nil => simp [find]
  | cons hd tl ih =>
      obtain ⟨k0, v0⟩ := hd
      by_cases h0 : k0 = k <;> simp [find, h0, ih]

/-!
The write loops of `DataContainer<T>::combine` and of the JSON export, as
folds over the source map's entry list.
-/

/-- The `combine` loop for `additional_data_`:
`for (pair : other) additional_data_[pair.first] = pair.second`. -/
def updList {V : Type} (m : List (String × V)) (l : List (String × V)) :
    List (String × V) :=
  l.foldl (fun acc kv => setE acc kv.1 kv.2) m

/-- A keyed write loop that transforms each value before writing; the JSON
export loops have this shape (each value is wrapped in a JSON node). -/
def updListMap {V W : Type} (f : V → W) (m : List (String × W))
    (l : List (String × V)) : List (String × W) :=
  l.foldl (fun acc kv => setE acc kv.1 (f kv.2)) m

/-- The `combine` loop for a snapshot map:
`for (pair : other) snaps_[pair.first].combine(pair.second)`, where
`operator[]` default-constructs an absent entry (`e`) and `combine` (`c`) is
the collaborator snapshot type's merge. -/
def updSnapList {S : Type} (e : S) (c : S → S → S) (m : List (String × S))
    (l : List (String × S)) : List (String × S) :=
  l.foldl (fun acc kv => setE acc kv.1 (c ((find acc kv.1).getD e) kv.2)) m

theorem nodup_keys_updListMap {V W : Type} (f : V → W)
    (l : List (String × V)) {m : List (String × W)} (h : (keys m).Nodup) :
    (keys (updListMap f m l)).Nodup := by
  induction l generalizing m with
  | nil => exact h
  | cons hd tl ih => exact ih (nodup_keys_setE hd.1 (f hd.2) h)

theorem updList_eq_updListMap {V : Type} (m l : List (String × V)) :
    updList m l = updListMap id m l := rfl

theorem nodup_keys_updList {V : Type} (l : List (String × V))
    {m : List (String × V)} (h : (keys m).Nodup) :
    (keys (updList m l)).Nodup := by
  rw [updList_eq_updListMap]
  exact nodup_keys_updListMap id l h

theorem nodup_keys_updSnapList {S : Type} (e : S) (c : S → S → S)
    (l : List (String × S)) {m : List (String × S)} (h : (keys m).Nodup) :
    (keys (updSnapList e c m l)).Nodup := by
  induction l generalizing m with
  | nil => exact h
  | cons hd tl ih => exact ih (nodup_keys_setE hd.1 _ h)

theorem find_updListMap {V W : Type} (f : V → W) (l : List (String × V))
    (hl : (keys l).Nodup) (m : List (String × W)) (k : String) :
    find (updListMap f m l) k =
      match find l k with
      | some v => some (f v)
      | none => find m k := by
  induction l generalizing m with
  | nil => simp [updListMap, find]
  | cons hd tl ih =>
      obtain ⟨k0, v0⟩ := hd
      rw [keys_cons] at hl
      have h1 : k0 ∉ keys tl := (List.nodup_cons.mp hl).1
      have h2 : (keys tl).Nodup := (List.nodup_cons.mp hl).2
      have hstep : updListMap f m ((k0, v0) :: tl) =
          updListMap f (setE m k0 (f v0)) tl := rfl
      rw [hstep, ih h2]
      by_cases hk : k0 = k
      · subst hk
        rw [(find_eq_none tl k0).mpr h1]
        simp [find, find_setE]
      · have hne : ¬ k0 = k := hk
        cases hf : find tl k with
        | some v => simp [find, hne, hf]
        | none => simp [find, hne, hf, find_setE]

theorem find_updList {V : Type} (l : List (String × V))
    (hl : (keys l).Nodup) (m : List (String × V)) (k : String) :
    find (updList m l) k =
      match find l k with
      | some v => some v
      | none => find m k := by
  rw [updList_eq_updListMap, find_updListMap id l hl m k]
  cases find l k <;> rfl

theorem find_updSnapList {S : Type} (e : S) (c : S → S → S)
    (l : List (String × S)) (hl : (keys l).Nodup) (m : List (String × S))
    (k : String) :
    find (updSnapList e c m l) k =
      match find l k with
      | some s => some (c ((find m k).getD e) s)
      | none => find m k := by
  induction l generalizing m with
  | nil => simp [updSnapList, find]
  | cons hd tl ih =>
      obtain ⟨k0, s0⟩ := hd
      rw [keys_cons] at hl
      have h1 : k0 ∉ keys tl := (List.nodup_cons.mp hl).1
      have h2 : (keys tl).Nodup := (List.nodup_cons.mp hl).2
      have hstep : updSnapList e c m ((k0, s0) :: tl) =
          updSnapList e c (setE m k0 (c ((find m k0).getD e) s0)) tl := rfl
      rw [hstep, ih h2]
      by_cases hk : k0 = k
      · subst hk
        rw [(find_eq_none tl k0).mpr h1]
        simp [find, find_setE]
      · have hne : ¬ k0 = k := hk
        cases hf : find tl k with
        | some s => simp [find, hne, hf, find_setE, hk]
        | none => simp [find, hne, hf, find_setE, hk]

theorem updSnapList_disjoint {S : Type} (e : S) (c : S → S → S)
    (hid : ∀ x, c e x = x) (l : List (String × S)) (hl : (keys l).Nodup)
    (m : List (String × S))
    (hdisj : ∀ k2, k2 ∈ keys l → find m k2 = none) :
    updSnapList e c m l = m ++ l := by
  induction l generalizing m with
  | nil => simp [updSnapList]
  | cons hd tl ih =>
      obtain ⟨k0, s0⟩ := hd
      rw [keys_cons] at hl
      have h1 : k0 ∉ keys tl := (List.nodup_cons.mp hl).1
      have h2 : (keys tl).Nodup := (List.nodup_cons.mp hl).2
      have hm0 : find m k0 = none :=
        hdisj k0 (by rw [keys_cons]; exact List.mem_cons_self k0 (keys tl))
      have hstep : updSnapList e c m ((k0, s0) :: tl) =
          updSnapList e c (setE m k0 (c ((find m k0).getD e) s0)) tl := rfl
      rw [hstep, hm0]
      simp only [Option.getD_none, hid s0]
      rw [setE_of_not_mem s0 ((find_eq_none m k0).mp hm0)]
      rw [ih h2]
      · simp
      · intro k2 hk2
        rw [find_append]
        rw [hdisj k2 (by rw [keys_cons]; exact List.mem_cons_of_mem k0 hk2)]
        have hne : ¬ k0 = k2 := fun he => h1 (he ▸ hk2)
        simp [find, hne]

theorem setE_updList {V : Type} {Y : List (String × V)} {k : String} (v : V)
    (X : List (String × V)) (hnY : k ∉ keys Y) (hkX : k ∈ keys X) :
    setE (updList X Y) k v = updList (setE X k v) Y := by
  induction Y generalizing X with
  | nil => rfl
  | cons hd tl ih =>
      obtain ⟨k1, v1⟩ := hd
      rw [keys_cons] at hnY
      have hn1 : k1 ≠ k := fun he => hnY (he ▸ List.mem_cons_self k1 (keys tl))
      have hntl : k ∉ keys tl := fun he => hnY (List.mem_cons_of_mem k1 he)
      have hstep : updList X ((k1, v1) :: tl) = updList (setE X k1 v1) tl :=
        rfl
      rw [hstep]
      have hstep2 : updList (setE X k v) ((k1, v1) :: tl) =
          updList (setE (setE X k v) k1 v1) tl := rfl
      rw [hstep2]
      rw [ih (setE X k1 v1) hntl (mem_keys_setE_of_mem k1 v1 hkX)]
      rw [setE_setE_comm v v1 hkX hn1]

theorem updList_setE {V : Type} (A B : List (String × V)) (k : String) (v : V)
    (hB : (keys B).Nodup) :
    updList A (setE B k v) = setE (updList A B) k v := by
  induction B generalizing A with
  | nil => rfl
  | cons hd tl ih =>
      obtain ⟨k0, v0⟩ := hd
      rw [keys_cons] at hB
      have h1 : k0 ∉ keys tl := (List.nodup_cons.mp hB).1
      have h2 : (keys tl).Nodup := (List.nodup_cons.mp hB).2
      by_cases h0 : k0 = k
      · subst h0
        have hs : setE ((k0, v0) :: tl) k0 v = (k0, v) :: tl := by
          simp [setE]
        rw [hs]
        have hL : updList A ((k0, v) :: tl) = updList (setE A k0 v) tl := rfl
        have hR : updList A ((k0, v0) :: tl) = updList (setE A k0 v0) tl :=
          rfl
        rw [hL, hR]
        rw [setE_updList v (setE A k0 v0) h1 (self_mem_keys_setE A k0 v0)]
        rw [setE_setE_same]
      · have hs : setE ((k0, v0) :: tl) k v = (k0, v0) :: setE tl k v := by
          simp [setE, h0]
        rw [hs]
        have hL : updList A ((k0, v0) :: setE tl k v) =
            updList (setE A k0 v0) (setE tl k v) := rfl
        have hR : updList A ((k0, v0) :: tl) = updList (setE A k0 v0) tl :=
          rfl
        rw [hL, hR]
        exact ih (setE A k0 v0) h2

theorem updList_assoc {V : Type} (A B C : List (String × V))
    (hB : (keys B).Nodup) :
    updList (updList A B) C = updList A (updList B C) := by
  induction C generalizing B with
  | nil => rfl
  | cons hd tl ih =>
      obtain ⟨k, v⟩ := hd
      have hL : updList (updList A B) ((k, v) :: tl) =
          updList (setE (updList A B) k v) tl := rfl
      have hR : updList B ((k, v) :: tl) = updList (setE B k v) tl := rfl
      rw [hL, hR]
      rw [← updList_setE A B k v hB]
      exact ih (setE B k v) (nodup_keys_setE k v hB)

/-!
The container's data model.  `SMap V` embeds `stringmap_t<V>` (a string-keyed
map): an association list with no duplicate keys.
-/

/-- A string-keyed map (`stringmap_t<V>`). -/
structure SMap (V : Type) where
  entries : List (String × V)
  nodup_keys : (keys entries).Nodup

def SMap.empty {V : Type} : SMap V := ⟨[], List.nodup_nil⟩

def SMap.lookup {V : Type} (m : SMap V) (k : String) : Option V :=
  find m.entries k

/-- `m[k] = v` (C++ `operator[]` assignment). -/
def SMap.set {V : Type} (m : SMap V) (k : String) (v : V) : SMap V :=
  ⟨setE m.entries k v, nodup_keys_setE k v m.nodup_keys⟩

theorem SMap.ext_entries {V : Type} {m m2 : SMap V}
    (h : m.entries = m2.entries) : m = m2 := by
  cases m
  cases m2
  cases h
  rfl

/-- Interface of the collaborator type `PershotSnapshot<T>`
(`framework/results/data/pershot_snapshot.hpp`, outside this unit): a
default-constructed value, `add_data(label, datum)`, and `combine(other)`. -/
structure PershotOps (T P : Type) where
  empty : P
  add_data : P → String → T → P
  combine : P → P → P

/-- Interface of the collaborator type `AverageSnapshot<T>`
(`framework/results/data/average_snapshot.hpp`, outside this unit): a
default-constructed value, `add_data(label, memory, datum, variance)`, and
`combine(other)`. -/
structure AverageOps (T A : Type) where
  empty : A
  add_data : A → String → String → T → Bool → A
  combine : A → A → A

/-- `AER::DataContainer<T>`: three string-keyed maps and the `enabled_` gate
(default `true`).  `P` and `A` stand for the collaborator snapshot types
`PershotSnapshot<T>` and `AverageSnapshot<T>`. -/
structure DataContainer (T P A : Type) where
  additional_data_ : SMap T
  pershot_snapshots_ : SMap P
  average_snapshots_ : SMap A
  enabled_ : Bool := true

theorem DataContainer.ext_fields {T P A : Type} {d d2 : DataContainer T P A}
    (h1 : d.additional_data_ = d2.additional_data_)
    (h2 : d.pershot_snapshots_ = d2.pershot_snapshots_)
    (h3 : d.average_snapshots_ = d2.average_snapshots_)
    (h4 : d.enabled_ = d2.enabled_) : d = d2 := by
  cases d
  cases d2
  cases h1
  cases h2
  cases h3
  cases h4
  rfl

/-!
The container's operations.  The C++ source has three overloads of each
insertion operation (const ref / mutable ref / rvalue ref); their bodies are
identical up to `std::move`, which has no effect on the stored value, so each
triple collapses to one function here.
-/

/-- `DataContainer<T>::add_additional_data(key, data)` (all three overloads):
`if (enabled_) additional_data_[key] = data;`. -/
def DataContainer.add_additional_data {T P A : Type} (d : DataContainer T P A)
    (key : String) (data : T) : DataContainer T P A :=
  if d.enabled_ then
    ⟨d.additional_data_.set key data, d.pershot_snapshots_,
      d.average_snapshots_, d.enabled_⟩
  else d

/-- `DataContainer<T>::add_pershot_snapshot(type, label, datum)` (all three
overloads): `if (enabled_) pershot_snapshots_[type].add_data(label, datum);`,
where `operator[]` default-constructs an absent entry. -/
def DataContainer.add_pershot_snapshot {T P A : Type} (pops : PershotOps T P)
    (d : DataContainer T P A) (type label : String) (datum : T) :
    DataContainer T P A :=
  if d.enabled_ then
    ⟨d.additional_data_,
      d.pershot_snapshots_.set type
        (pops.add_data ((d.pershot_snapshots_.lookup type).getD pops.empty)
          label datum),
      d.average_snapshots_, d.enabled_⟩
  else d

/-- `DataContainer<T>::add_average_snapshot(type, label, memory, datum,
variance)` (all three overloads):
`if (enabled_) average_snapshots_[type].add_data(label, memory, datum,
variance);`. -/
def DataContainer.add_average_snapshot {T P A : Type} (aops : AverageOps T A)
    (d : DataContainer T P A) (type label memory : String) (datum : T)
    (variance : Bool) : DataContainer T P A :=
  if d.enabled_ then
    ⟨d.additional_data_, d.pershot_snapshots_,
      d.average_snapshots_.set type
        (aops.add_data ((d.average_snapshots_.lookup type).getD aops.empty)
          label memory datum variance),
      d.enabled_⟩
  else d

/-- `DataContainer<T>::enable(value)`. -/
def DataContainer.enable {T P A : Type} (d : DataContainer T P A)
    (value : Bool) : DataContainer T P A :=
  ⟨d.additional_data_, d.pershot_snapshots_, d.average_snapshots_, value⟩

/-- `DataContainer<T>::clear()`: empties the three maps, leaves `enabled_`
alone. -/
def DataContainer.clear {T P A : Type} (d : DataContainer T P A) :
    DataContainer T P A :=
  ⟨SMap.empty, SMap.empty, SMap.empty, d.enabled_⟩

/-- The shared body of both `DataContainer<T>::combine` overloads: fold each
of `other`'s three maps into `this` (`std::move` on the values, present only
in the move overload, does not change the stored values).  The result is the
post-call `*this`. -/
def DataContainer.combine {T P A : Type} (pops : PershotOps T P)
    (aops : AverageOps T A) (t o : DataContainer T P A) :
    DataContainer T P A :=
  ⟨⟨updList t.additional_data_.entries o.additional_data_.entries,
      nodup_keys_updList o.additional_data_.entries
        t.additional_data_.nodup_keys⟩,
    ⟨updSnapList pops.empty pops.combine t.pershot_snapshots_.entries
        o.pershot_snapshots_.entries,
      nodup_keys_updSnapList pops.empty pops.combine
        o.pershot_snapshots_.entries t.pershot_snapshots_.nodup_keys⟩,
    ⟨updSnapList aops.empty aops.combine t.average_snapshots_.entries
        o.average_snapshots_.entries,
      nodup_keys_updSnapList aops.empty aops.combine
        o.average_snapshots_.entries t.average_snapshots_.nodup_keys⟩,
    t.enabled_⟩

/-- `DataContainer<T>::combine(const DataContainer<T>&)` (copy form).  The
returned pair is (post-call `*this`, post-call `other`): the argument is
taken by const reference and never written, so the second component is
`other` itself. -/
def DataContainer.combine_copy {T P A : Type} (pops : PershotOps T P)
    (aops : AverageOps T A) (t o : DataContainer T P A) :
    DataContainer T P A × DataContainer T P A :=
  (DataContainer.combine pops aops t o, o)

/-- `DataContainer<T>::combine(DataContainer<T>&&)` (move form): same merge,
then `other.clear()`.  The returned pair is (post-call `*this`, post-call
`other`). -/
def DataContainer.combine_move {T P A : Type} (pops : PershotOps T P)
    (aops : AverageOps T A) (t o : DataContainer T P A) :
    DataContainer T P A × DataContainer T P A :=
  (DataContainer.combine pops aops t o, o.clear)

/-!
The JSON export (`to_json(json_t&, const DataContainer<T>&)`).  `json_t` is
nlohmann json; we model the values reachable here: `null`, a serialized `T`
(`prim`), a serialized `PershotSnapshot<T>` (`pfrag`), a serialized
`AverageSnapshot<T>` (`afrag`), and objects.  nlohmann `operator[]` on a
`null` value turns it into an object, and on any other non-object value
throws `type_error`; the throw is modelled as `Except.error` (the partially
written document that C++ leaves behind on throw is not modelled — every
claim below concerns runs that complete normally).
-/

/-- A JSON value, as far as this unit's export can produce or inspect one. -/
inductive JVal (T P A : Type) : Type where
  | null : JVal T P A
  | prim : T → JVal T P A
  | pfrag : P → JVal T P A
  | afrag : A → JVal T P A
  | obj : List (String × JVal T P A) → JVal T P A

/-- `js[k] = v` on a top-level document: nlohmann `operator[]` plus
assignment.  `null` becomes an object; other non-objects throw. -/
def objSet {T P A : Type} (js : JVal T P A) (k : String) (v : JVal T P A) :
    Except Unit (JVal T P A) :=
  match js with
  | .null => .ok (.obj [(k, v)])
  | .obj m => .ok (.obj (setE m k v))
  | _ => .error ()

/-- `js["snapshots"][kind] = frag`: nlohmann `operator[]` twice, then
assignment.  An absent or `null` `"snapshots"` entry becomes a fresh object;
a non-object `"snapshots"` entry throws. -/
def snapSet {T P A : Type} (js : JVal T P A) (kind : String)
    (frag : JVal T P A) : Except Unit (JVal T P A) :=
  match js with
  | .null => .ok (.obj [("snapshots", .obj [(kind, frag)])])
  | .obj m =>
      match find m "snapshots" with
      | none => .ok (.obj (setE m "snapshots" (.obj [(kind, frag)])))
      | some .null => .ok (.obj (setE m "snapshots" (.obj [(kind, frag)])))
      | some (.obj sm) =>
          .ok (.obj (setE m "snapshots" (.obj (setE sm kind frag))))
      | some _ => .error ()
  | _ => .error ()

/-- The first loop of `to_json`: `for (pair : data.additional_data_)
js[pair.first] = pair.second;`. -/
def writeAdds {T P A : Type} :
    JVal T P A → List (String × T) → Except Unit (JVal T P A)
  | js, [] => .ok js
  | js, (k, v) :: rest =>
      match objSet js k (.prim v) with
      | .ok js1 => writeAdds js1 rest
      | .error e => .error e

/-- The snapshot loops of `to_json`:
`for (pair : snaps) js["snapshots"][pair.first] = pair.second;`, with `inj`
the serialization of the snapshot value (`JVal.afrag` for the average loop,
`JVal.pfrag` for the pershot loop). -/
def writeSnaps {T P A S : Type} (inj : S → JVal T P A) :
    JVal T P A → List (String × S) → Except Unit (JVal T P A)
  | js, [] => .ok js
  | js, (k, s) :: rest =>
      match snapSet js k (inj s) with
      | .ok js1 => writeSnaps inj js1 rest
      | .error e => .error e

/-- `to_json(json_t& js, const DataContainer<T>& data)`: when `enabled_`,
write the additional data, then the average snapshots, then the pershot
snapshots into `js`; otherwise leave `js` untouched. -/
def to_json {T P A : Type} (js : JVal T P A) (data : DataContainer T P A) :
    Except Unit (JVal T P A) :=
  if data.enabled_ then
    match writeAdds js data.additional_data_.entries with
    | .error e => .error e
    | .ok js1 =>
        match writeSnaps JVal.afrag js1 data.average_snapshots_.entries with
        | .error e => .error e
        | .ok js2 => writeSnaps JVal.pfrag js2 data.pershot_snapshots_.entries
  else .ok js

theorem writeAdds_obj {T P A : Type} (l : List (String × T))
    (m : List (String × JVal T P A)) :
    writeAdds (.obj m) l = .ok (.obj (updListMap JVal.prim m l)) := by
  induction l generalizing m with
  | nil => rfl
  | cons hd tl ih =>
      obtain ⟨k, v⟩ := hd
      have hstep : writeAdds (JVal.obj m) ((k, v) :: tl) =
          writeAdds (JVal.obj (setE m k (.prim v))) tl := rfl
      rw [hstep, ih]
      rfl

theorem writeSnaps_obj {T P A S : Type} (inj : S → JVal T P A)
    (l : List (String × S)) (m : List (String × JVal T P A))
    (sm : List (String × JVal T P A))
    (h : find m "snapshots" = some (.obj sm)) :
    writeSnaps inj (.obj m) l =
      .ok (.obj (setE m "snapshots" (.obj (updListMap inj sm l)))) := by
  induction l generalizing m sm with
  | nil =>
      simp only [updListMap, List.foldl_nil]
      rw [setE_self h]
      rfl
  | cons hd tl ih =>
      obtain ⟨k, s⟩ := hd
      have hstep : writeSnaps inj (JVal.obj m) ((k, s) :: tl) =
          writeSnaps inj
            (.obj (setE m "snapshots" (.obj (setE sm k (inj s))))) tl := by
        rw [show writeSnaps inj (JVal.obj m) ((k, s) :: tl) =
            match snapSet (JVal.obj m) k (inj s) with
            | .ok js1 => writeSnaps inj js1 tl
            | .error e => .error e from rfl]
        rw [show snapSet (JVal.obj m) k (inj s) =
            .ok (.obj (setE m "snapshots" (.obj (setE sm k (inj s))))) from
          by simp [snapSet, h]]
      rw [hstep]
      rw [ih (setE m "snapshots" (.obj (setE sm k (inj s))))
        (setE sm k (inj s)) (by rw [find_setE]; simp)]
      rw [setE_setE_same]
      rfl

theorem writeSnaps_obj_absent {T P A S : Type} (inj : S → JVal T P A)
    (k : String) (s : S) (l : List (String × S))
    (m : List (String × JVal T P A))
    (h : find m "snapshots" = none ∨ find m "snapshots" = some .null) :
    writeSnaps inj (.obj m) ((k, s) :: l) =
      .ok (.obj (setE m "snapshots"
        (.obj (updListMap inj [] ((k, s) :: l))))) := by
  have hstep : writeSnaps inj (JVal.obj m) ((k, s) :: l) =
      writeSnaps inj (.obj (setE m "snapshots" (.obj [(k, inj s)]))) l := by
    rw [show writeSnaps inj (JVal.obj m) ((k, s) :: l) =
        match snapSet (JVal.obj m) k (inj s) with
        | .ok js1 => writeSnaps inj js1 l
        | .error e => .error e from rfl]
    rcases h with h | h <;>
      rw [show snapSet (JVal.obj m) k (inj s) =
          .ok (.obj (setE m "snapshots" (.obj [(k, inj s)]))) from
        by simp [snapSet, h]]
  rw [hstep]
  rw [writeSnaps_obj inj l (setE m "snapshots" (.obj [(k, inj s)]))
    [(k, inj s)] (by rw [find_setE]; simp)]
  rw [setE_setE_same]
  rfl

theorem writeSnaps_obj_bad {T P A S : Type} (inj : S → JVal T P A)
    (k : String) (s : S) (l : List (String × S))
    (m : List (String × JVal T P A)) (v : JVal T P A)
    (h : find m "snapshots" = some v)
    (hv : ∀ sm, v ≠ .obj sm) (hnull : v ≠ .null) :
    writeSnaps inj (.obj m) ((k, s) :: l) = .error () := by
  rw [show writeSnaps inj (JVal.obj m) ((k, s) :: l) =
      match snapSet (JVal.obj m) k (inj s) with
      | .ok js1 => writeSnaps inj js1 l
      | .error e => .error e from rfl]
  have hbad : snapSet (JVal.obj m) k (inj s) = .error () := by
    cases v with
    | null => exact absurd rfl hnull
    | obj sm => exact absurd rfl (hv sm)
    | prim t => simp [snapSet, h]
    | pfrag p => simp [snapSet, h]
    | afrag a => simp [snapSet, h]
  rw [hbad]

/-- Shape and top-level frame of the snapshot loops: on an object they either
throw or return an object whose entries at keys other than `"snapshots"` are
untouched. -/
theorem writeSnaps_frame {T P A S : Type} (inj : S → JVal T P A)
    (l : List (String × S)) (m : List (String × JVal T P A))
    (js2 : JVal T P A) (h : writeSnaps inj (.obj m) l = .ok js2) :
    ∃ m2, js2 = .obj m2 ∧
      ∀ k2, k2 ≠ "snapshots" → find m2 k2 = find m k2 := by
  induction l generalizing m with
  | nil =>
      refine ⟨m, ?_, fun k2 _ => rfl⟩
      have : Except.ok (ε := Unit) (JVal.obj m) = .ok js2 := h
      cases this
      rfl
  | cons hd tl ih =>
      obtain ⟨k, s⟩ := hd
      rw [show writeSnaps inj (JVal.obj m) ((k, s) :: tl) =
          match snapSet (JVal.obj m) k (inj s) with
          | .ok js1 => writeSnaps inj js1 tl
          | .error e => .error e from rfl] at h
      cases hfind : find m "snapshots" with
      | none =>
          rw [show snapSet (JVal.obj m) k (inj s) =
              .ok (.obj (setE m "snapshots" (.obj [(k, inj s)]))) from
            by simp [snapSet, hfind]] at h
          obtain ⟨m2, hm2, hframe⟩ := ih _ h
          refine ⟨m2, hm2, fun k2 hk2 => ?_⟩
          rw [hframe k2 hk2, find_setE]
          rw [if_neg (fun he => hk2 (Eq.symm he))]
      | some v =>
          cases v with
          | null =>
              rw [show snapSet (JVal.obj m) k (inj s) =
                  .ok (.obj (setE m "snapshots" (.obj [(k, inj s)]))) from
                by simp [snapSet, hfind]] at h
              obtain ⟨m2, hm2, hframe⟩ := ih _ h
              refine ⟨m2, hm2, fun k2 hk2 => ?_⟩
              rw [hframe k2 hk2, find_setE]
              rw [if_neg (fun he => hk2 (Eq.symm he))]
          | obj sm =>
              rw [show snapSet (JVal.obj m) k (inj s) =
                  .ok (.obj (setE m "snapshots" (.obj (setE sm k (inj s)))))
                from by simp [snapSet, hfind]] at h
              obtain ⟨m2, hm2, hframe⟩ := ih _ h
              refine ⟨m2, hm2, fun k2 hk2 => ?_⟩
              rw [hframe k2 hk2, find_setE]
              rw [if_neg (fun he => hk2 (Eq.symm he))]
          | prim t => simp [snapSet, hfind] at h
          | pfrag p => simp [snapSet, hfind] at h
          | afrag a => simp [snapSet, hfind] at h

/-!
Helper lemmas at the level of `SMap` for the combine claims.
-/

theorem keys_append {V : Type} (l1 l2 : List (String × V)) :
    keys (l1 ++ l2) = keys l1 ++ keys l2 := by
  simp [keys]

theorem nodup_keys_append {V : Type} {l1 l2 : List (String × V)}
    (h1 : (keys l1).Nodup) (h2 : (keys l2).Nodup)
    (hd : ∀ k, k ∈ keys l1 → k ∉ keys l2) :
    (keys (l1 ++ l2)).Nodup := by
  rw [keys_append]
  exact List.nodup_append.mpr ⟨h1, h2, fun a ha hb => hd a ha hb⟩

/-- Resolve a pointwise disjointness disjunction: if one of two maps has no
entry at `k` and the second one does have `k` among its keys, the first one
has no entry at `k`. -/
theorem lookup_none_resolve {S : Type} {m1 m2 : SMap S} {k : String}
    (h : m1.lookup k = none ∨ m2.lookup k = none)
    (hk : k ∈ keys m2.entries) : find m1.entries k = none := by
  rcases h with h | h
  · exact h
  · exfalso
    obtain ⟨v, hv⟩ := find_of_mem_keys hk
    have hh : find m2.entries k = none := h
    rw [hh] at hv
    exact Option.noConfusion hv

/-- Claim C1: combine is associative on containers populated with
disjoint-kind data.  The collaborator snapshot combine operations are
abstract parameters assumed associative and commutative (spec §6); they are
additionally assumed to act as the identity on a default-constructed
snapshot, which is the spec's own description of the absent-kind case
("if absent in `this` it is inserted wholesale", §4.1) of the collaborator
code that lies outside this unit.  Under these assumptions,
`combine(combine(copy(A),B), C)` and `combine(copy(A), combine(copy(B),C))`
are equal containers — in particular their three maps, and the exported
documents obtained from them, coincide. -/
theorem C1_combine_assoc {T P A : Type} (pops : PershotOps T P)
    (aops : AverageOps T A)
    (hPassoc : ∀ x y z,
      pops.combine (pops.combine x y) z = pops.combine x (pops.combine y z))
    (hPcomm : ∀ x y, pops.combine x y = pops.combine y x)
    (hPid : ∀ x, pops.combine pops.empty x = x)
    (hAassoc : ∀ x y z,
      aops.combine (aops.combine x y) z = aops.combine x (aops.combine y z))
    (hAcomm : ∀ x y, aops.combine x y = aops.combine y x)
    (hAid : ∀ x, aops.combine aops.empty x = x)
    (a b c : DataContainer T P A)
    (hdP : ∀ k,
      (a.pershot_snapshots_.lookup k = none ∨
        b.pershot_snapshots_.lookup k = none) ∧
      (a.pershot_snapshots_.lookup k = none ∨
        c.pershot_snapshots_.lookup k = none) ∧
      (b.pershot_snapshots_.lookup k = none ∨
        c.pershot_snapshots_.lookup k = none))
    (hdA : ∀ k,
      (a.average_snapshots_.lookup k = none ∨
        b.average_snapshots_.lookup k = none) ∧
      (a.average_snapshots_.lookup k = none ∨
        c.average_snapshots_.lookup k = none) ∧
      (b.average_snapshots_.lookup k = none ∨
        c.average_snapshots_.lookup k = none)) :
    (DataContainer.combine_copy pops aops
        (DataContainer.combine_copy pops aops a b).1 c).1 =
      (DataContainer.combine_copy pops aops a
        (DataContainer.combine_copy pops aops b c).1).1 ∧
    ∀ js, to_json js
        (DataContainer.combine_copy pops aops
          (DataContainer.combine_copy pops aops a b).1 c).1 =
      to_json js
        (DataContainer.combine_copy pops aops a
          (DataContainer.combine_copy pops aops b c).1).1 := by
  have hmain : (DataContainer.combine_copy pops aops
      (DataContainer.combine_copy pops aops a b).1 c).1 =
      (DataContainer.combine_copy pops aops a
        (DataContainer.combine_copy pops aops b c).1).1 := by
    apply DataContainer.ext_fields
    · apply SMap.ext_entries
      exact updList_assoc a.additional_data_.entries
        b.additional_data_.entries c.additional_data_.entries
        b.additional_data_.nodup_keys
    · apply SMap.ext_entries
      show updSnapList pops.empty pops.combine
          (updSnapList pops.empty pops.combine a.pershot_snapshots_.entries
            b.pershot_snapshots_.entries) c.pershot_snapshots_.entries =
        updSnapList pops.empty pops.combine a.pershot_snapshots_.entries
          (updSnapList pops.empty pops.combine b.pershot_snapshots_.entries
            c.pershot_snapshots_.entries)
      have hab : updSnapList pops.empty pops.combine
          a.pershot_snapshots_.entries b.pershot_snapshots_.entries =
          a.pershot_snapshots_.entries ++ b.pershot_snapshots_.entries :=
        updSnapList_disjoint pops.empty pops.combine hPid
          b.pershot_snapshots_.entries b.pershot_snapshots_.nodup_keys
          a.pershot_snapshots_.entries
          (fun k2 hk2 => lookup_none_resolve (hdP k2).1 hk2)
      have hbc : updSnapList pops.empty pops.combine
          b.pershot_snapshots_.entries c.pershot_snapshots_.entries =
          b.pershot_snapshots_.entries ++ c.pershot_snapshots_.entries :=
        updSnapList_disjoint pops.empty pops.combine hPid
          c.pershot_snapshots_.entries c.pershot_snapshots_.nodup_keys
          b.pershot_snapshots_.entries
          (fun k2 hk2 => lookup_none_resolve (hdP k2).2.2 hk2)
      rw [hab, hbc]
      have habc : updSnapList pops.empty pops.combine
          (a.pershot_snapshots_.entries ++ b.pershot_snapshots_.entries)
          c.pershot_snapshots_.entries =
          (a.pershot_snapshots_.entries ++ b.pershot_snapshots_.entries) ++
            c.pershot_snapshots_.entries := by
        apply updSnapList_disjoint pops.empty pops.combine hPid
          c.pershot_snapshots_.entries c.pershot_snapshots_.nodup_keys
        intro k2 hk2
        rw [find_append]
        rw [lookup_none_resolve (hdP k2).2.1 hk2]
        exact lookup_none_resolve (hdP k2).2.2 hk2
      have hbck : ∀ k2, k2 ∈ keys (b.pershot_snapshots_.entries ++
          c.pershot_snapshots_.entries) → k2 ∈ keys b.pershot_snapshots_.entries
          ∨ k2 ∈ keys c.pershot_snapshots_.entries := by
        intro k2 hk2
        rw [keys_append] at hk2
        exact List.mem_append.mp hk2
      have habc2 : updSnapList pops.empty pops.combine
          a.pershot_snapshots_.entries
          (b.pershot_snapshots_.entries ++ c.pershot_snapshots_.entries) =
          a.pershot_snapshots_.entries ++
            (b.pershot_snapshots_.entries ++ c.pershot_snapshots_.entries) := by
        apply updSnapList_disjoint pops.empty pops.combine hPid
          (b.pershot_snapshots_.entries ++ c.pershot_snapshots_.entries)
          (nodup_keys_append b.pershot_snapshots_.nodup_keys
            c.pershot_snapshots_.nodup_keys
            (fun k hkb hkc => by
              have := lookup_none_resolve (Or.comm.mp (hdP k).2.2) hkb
              obtain ⟨v, hv⟩ := find_of_mem_keys hkc
              rw [this] at hv
              exact Option.noConfusion hv))
          a.pershot_snapshots_.entries
        intro k2 hk2
        rcases hbck k2 hk2 with h | h
        · exact lookup_none_resolve (hdP k2).1 h
        · exact lookup_none_resolve (hdP k2).2.1 h
      rw [habc, habc2, List.append_assoc]
    · apply SMap.ext_entries
      show updSnapList aops.empty aops.combine
          (updSnapList aops.empty aops.combine a.average_snapshots_.entries
            b.average_snapshots_.entries) c.average_snapshots_.entries =
        updSnapList aops.empty aops.combine a.average_snapshots_.entries
          (updSnapList aops.empty aops.combine b.average_snapshots_.entries
            c.average_snapshots_.entries)
      have hab : updSnapList aops.empty aops.combine
          a.average_snapshots_.entries b.average_snapshots_.entries =
          a.average_snapshots_.entries ++ b.average_snapshots_.entries :=
        updSnapList_disjoint aops.empty aops.combine hAid
          b.average_snapshots_.entries b.average_snapshots_.nodup_keys
          a.average_snapshots_.entries
          (fun k2 hk2 => lookup_none_resolve (hdA k2).1 hk2)
      have hbc : updSnapList aops.empty aops.combine
          b.average_snapshots_.entries c.average_snapshots_.entries =
          b.average_snapshots_.entries ++ c.average_snapshots_.entries :=
        updSnapList_disjoint aops.empty aops.combine hAid
          c.average_snapshots_.entries c.average_snapshots_.nodup_keys
          b.average_snapshots_.entries
          (fun k2 hk2 => lookup_none_resolve (hdA k2).2.2 hk2)
      rw [hab, hbc]
      have habc : updSnapList aops.empty aops.combine
          (a.average_snapshots_.entries ++ b.average_snapshots_.entries)
          c.average_snapshots_.entries =
          (a.average_snapshots_.entries ++ b.average_snapshots_.entries) ++
            c.average_snapshots_.entries := by
        apply updSnapList_disjoint aops.empty aops.combine hAid
          c.average_snapshots_.entries c.average_snapshots_.nodup_keys
        intro k2 hk2
        rw [find_append]
        rw [lookup_none_resolve (hdA k2).2.1 hk2]
        exact lookup_none_resolve (hdA k2).2.2 hk2
      have habc2 : updSnapList aops.empty aops.combine
          a.average_snapshots_.entries
          (b.average_snapshots_.entries ++ c.average_snapshots_.entries) =
          a.average_snapshots_.entries ++
            (b.average_snapshots_.entries ++ c.average_snapshots_.entries) := by
        apply updSnapList_disjoint aops.empty aops.combine hAid
          (b.average_snapshots_.entries ++ c.average_snapshots_.entries)
          (nodup_keys_append b.average_snapshots_.nodup_keys
            c.average_snapshots_.nodup_keys
            (fun k hkb hkc => by
              have := lookup_none_resolve (Or.comm.mp (hdA k).2.2) hkb
              obtain ⟨v, hv⟩ := find_of_mem_keys hkc
              rw [this] at hv
              exact Option.noConfusion hv))
          a.average_snapshots_.entries
        intro k2 hk2
        rw [keys_append] at hk2
        rcases List.mem_append.mp hk2 with h | h
        · exact lookup_none_resolve (hdA k2).1 h
        · exact lookup_none_resolve (hdA k2).2.1 h
      rw [habc, habc2, List.append_assoc]
    · rfl
  exact ⟨hmain, fun js => congrArg (fun d => to_json js d) hmain⟩

/-- Claim C2: the move form of combine empties the source: after
`this.combine(move(other))`, all three maps of `other` are empty and its
`enabled_` flag keeps its pre-call value. -/
theorem C2_move_empties_source {T P A : Type} (pops : PershotOps T P)
    (aops : AverageOps T A) (t o : DataContainer T P A) :
    (DataContainer.combine_move pops aops t o).2.additional_data_.entries = []
    ∧ (DataContainer.combine_move pops aops t o).2.pershot_snapshots_.entries
        = []
    ∧ (DataContainer.combine_move pops aops t o).2.average_snapshots_.entries
        = []
    ∧ (DataContainer.combine_move pops aops t o).2.enabled_ = o.enabled_ :=
  ⟨rfl, rfl, rfl, rfl⟩

/-- Claim C8: the copy form of combine takes `other` by const reference and
never writes it, so after the call `other` (its three maps and its flag) is
exactly its pre-call value. -/
theorem C8_copy_preserves_source {T P A : Type} (pops : PershotOps T P)
    (aops : AverageOps T A) (t o : DataContainer T P A) :
    (DataContainer.combine_copy pops aops t o).2 = o := rfl

/-- Claim C3: insertion gating.  On a container whose `enabled_` flag is
`false`, every insertion operation (each of `add_additional_data`,
`add_pershot_snapshot`, `add_average_snapshot`; the three C++ overloads of
each share one body here) leaves the container — in particular its three
maps — unchanged, for any arguments. -/
theorem C3_gating {T P A : Type} (pops : PershotOps T P)
    (aops : AverageOps T A) (d : DataContainer T P A)
    (h : d.enabled_ = false) (key type label memory : String)
    (data datum datum2 : T) (variance : Bool) :
    d.add_additional_data key data = d ∧
    DataContainer.add_pershot_snapshot pops d type label datum = d ∧
    DataContainer.add_average_snapshot aops d type label memory datum2
      variance = d := by
  refine ⟨?_, ?_, ?_⟩ <;>
    simp [DataContainer.add_additional_data,
      DataContainer.add_pershot_snapshot,
      DataContainer.add_average_snapshot, h]

/-- Claim C4: last-writer-wins for `additional_data_` under combine (both
forms): at every key, the combined container holds `other`'s value when
`other` has the key, and `this`'s pre-call value otherwise. -/
theorem C4_extras_overwrite {T P A : Type} (pops : PershotOps T P)
    (aops : AverageOps T A) (t o : DataContainer T P A) (k : String) :
    (DataContainer.combine_copy pops aops t o).1.additional_data_.lookup k =
      (match o.additional_data_.lookup k with
        | some v => some v
        | none => t.additional_data_.lookup k) ∧
    (DataContainer.combine_move pops aops t o).1.additional_data_.lookup k =
      (match o.additional_data_.lookup k with
        | some v => some v
        | none => t.additional_data_.lookup k) := by
  constructor <;>
    exact find_updList o.additional_data_.entries
      o.additional_data_.nodup_keys t.additional_data_.entries k

/-- Claim C5: combine neither reads nor writes the `enabled_` flags' gating
of data: the three maps of the result are the same whatever the two
operands' `enabled_` values are, and (pointwise characterization) combine
merges `other`'s data over `this`'s, never clearing entries that only
`this` holds. -/
theorem C5_combine_ignores_enabled {T P A : Type} (pops : PershotOps T P)
    (aops : AverageOps T A) (t o : DataContainer T P A)
    (e1 e2 e3 e4 : Bool) :
    (DataContainer.combine pops aops (t.enable e1)
        (o.enable e2)).additional_data_ =
      (DataContainer.combine pops aops (t.enable e3)
        (o.enable e4)).additional_data_ ∧
    (DataContainer.combine pops aops (t.enable e1)
        (o.enable e2)).pershot_snapshots_ =
      (DataContainer.combine pops aops (t.enable e3)
        (o.enable e4)).pershot_snapshots_ ∧
    (DataContainer.combine pops aops (t.enable e1)
        (o.enable e2)).average_snapshots_ =
      (DataContainer.combine pops aops (t.enable e3)
        (o.enable e4)).average_snapshots_ ∧
    (∀ k, (DataContainer.combine pops aops t o).additional_data_.lookup k =
      (match o.additional_data_.lookup k with
        | some v => some v
        | none => t.additional_data_.lookup k)) ∧
    (∀ k, (DataContainer.combine pops aops t o).pershot_snapshots_.lookup k =
      (match o.pershot_snapshots_.lookup k with
        | some s => some (pops.combine
            ((t.pershot_snapshots_.lookup k).getD pops.empty) s)
        | none => t.pershot_snapshots_.lookup k)) ∧
    (∀ k, (DataContainer.combine pops aops t o).average_snapshots_.lookup k =
      (match o.average_snapshots_.lookup k with
        | some s => some (aops.combine
            ((t.average_snapshots_.lookup k).getD aops.empty) s)
        | none => t.average_snapshots_.lookup k)) := by
  refine ⟨rfl, rfl, rfl, ?_, ?_, ?_⟩
  · intro k
    exact find_updList o.additional_data_.entries
      o.additional_data_.nodup_keys t.additional_data_.entries k
  · intro k
    exact find_updSnapList pops.empty pops.combine
      o.pershot_snapshots_.entries o.pershot_snapshots_.nodup_keys
      t.pershot_snapshots_.entries k
  · intro k
    exact find_updSnapList aops.empty aops.combine
      o.average_snapshots_.entries o.average_snapshots_.nodup_keys
      t.average_snapshots_.entries k

/-- Claim C6: a disabled container exports nothing: `to_json` returns the
target document unchanged whenever `enabled_` is `false`. -/
theorem C6_disabled_export {T P A : Type} (d : DataContainer T P A)
    (h : d.enabled_ = false) (js : JVal T P A) :
    to_json js d = .ok js := by
  simp [to_json, h]

/-- Claim C7: `clear()` empties all three maps and leaves `enabled_` as it
was; exporting the cleared (enabled) container into an empty document
returns the empty document: no keys and no `"snapshots"` section. -/
theorem C7_clear_total {T P A : Type} (d : DataContainer T P A) :
    d.clear.additional_data_.entries = [] ∧
    d.clear.pershot_snapshots_.entries = [] ∧
    d.clear.average_snapshots_.entries = [] ∧
    d.clear.enabled_ = d.enabled_ ∧
    to_json (JVal.obj []) (d.clear.enable true) = .ok (.obj []) :=
  ⟨rfl, rfl, rfl, rfl, rfl⟩

theorem to_json_err2 {T P A : Type} (d : DataContainer T P A)
    (js js1 : JVal T P A) (e : Unit) (hen : d.enabled_ = true)
    (h1 : writeAdds js d.additional_data_.entries = .ok js1)
    (h2 : writeSnaps JVal.afrag js1 d.average_snapshots_.entries = .error e) :
    to_json js d = .error e := by
  simp [to_json, hen, h1, h2]

theorem to_json_stages {T P A : Type} (d : DataContainer T P A)
    (js js1 js2 : JVal T P A) (hen : d.enabled_ = true)
    (h1 : writeAdds js d.additional_data_.entries = .ok js1)
    (h2 : writeSnaps JVal.afrag js1 d.average_snapshots_.entries = .ok js2) :
    to_json js d =
      writeSnaps JVal.pfrag js2 d.pershot_snapshots_.entries := by
  simp [to_json, hen, h1, h2]

/-- Claim C9: export collision rule.  On an enabled container holding some
kind in both snapshot maps, a successful export into an empty document puts
the pershot fragment under `"snapshots"` for that kind: the average loop
writes first and the pershot loop writes after it, overwriting the entry. -/
theorem C9_export_collision {T P A : Type} (d : DataContainer T P A)
    (kind : String) (p : P) (av : A) (js2 : JVal T P A)
    (hen : d.enabled_ = true)
    (hp : d.pershot_snapshots_.lookup kind = some p)
    (ha : d.average_snapshots_.lookup kind = some av)
    (hok : to_json (.obj []) d = .ok js2) :
    ∃ m sm, js2 = .obj m ∧ find m "snapshots" = some (.obj sm) ∧
      find sm kind = some (.pfrag p) := by
  have h1 := writeAdds_obj d.additional_data_.entries
    ([] : List (String × JVal T P A))
  have hane : d.average_snapshots_.entries ≠ [] :=
    ne_nil_of_find (show find d.average_snapshots_.entries kind = some av
      from ha)
  obtain ⟨hd0, tl0, hcons⟩ := List.exists_cons_of_ne_nil hane
  obtain ⟨k0, s0⟩ := hd0
  cases hs : find d.additional_data_.entries "snapshots" with
  | some w =>
      have hm1s : find (updListMap JVal.prim ([] : List (String × JVal T P A))
          d.additional_data_.entries)
          "snapshots" = some (.prim w) := by
        rw [find_updListMap JVal.prim d.additional_data_.entries
          d.additional_data_.nodup_keys [] "snapshots", hs]
      have herr : writeSnaps JVal.afrag
          (.obj (updListMap JVal.prim ([] : List (String × JVal T P A))
            d.additional_data_.entries))
          d.average_snapshots_.entries = .error () := by
        rw [hcons]
        exact writeSnaps_obj_bad JVal.afrag k0 s0 tl0 _ _ hm1s
          (fun sm h => JVal.noConfusion h) (fun h => JVal.noConfusion h)
      rw [to_json_err2 d _ _ () hen h1 herr] at hok
      exact Except.noConfusion hok
  | none =>
      have hm1s : find (updListMap JVal.prim ([] : List (String × JVal T P A))
          d.additional_data_.entries)
          "snapshots" = none := by
        rw [find_updListMap JVal.prim d.additional_data_.entries
          d.additional_data_.nodup_keys [] "snapshots", hs]
        rfl
      have h2 : writeSnaps JVal.afrag
          (.obj (updListMap JVal.prim ([] : List (String × JVal T P A))
            d.additional_data_.entries))
          d.average_snapshots_.entries =
          .ok (.obj (setE (updListMap JVal.prim
              ([] : List (String × JVal T P A)) d.additional_data_.entries)
            "snapshots"
            (.obj (updListMap JVal.afrag [] d.average_snapshots_.entries)))) :=
        by
        rw [hcons]
        exact writeSnaps_obj_absent JVal.afrag k0 s0 tl0 _ (Or.inl hm1s)
      have hmain := to_json_stages d (.obj []) _ _ hen h1 h2
      rw [hmain] at hok
      have hsnapA : find (setE (updListMap JVal.prim
          ([] : List (String × JVal T P A))
          d.additional_data_.entries) "snapshots"
          (.obj (updListMap JVal.afrag [] d.average_snapshots_.entries)))
          "snapshots" =
          some (.obj (updListMap JVal.afrag []
            d.average_snapshots_.entries)) := by
        rw [find_setE]
        simp
      rw [writeSnaps_obj JVal.pfrag d.pershot_snapshots_.entries _ _ hsnapA]
        at hok
      rw [setE_setE_same] at hok
      have hjs2 : js2 =
          .obj (setE (updListMap JVal.prim ([] : List (String × JVal T P A))
              d.additional_data_.entries)
            "snapshots"
            (.obj (updListMap JVal.pfrag
              (updListMap JVal.afrag [] d.average_snapshots_.entries)
              d.pershot_snapshots_.entries))) :=
        (Except.ok.inj hok).symm
      refine ⟨setE (updListMap JVal.prim ([] : List (String × JVal T P A))
            d.additional_data_.entries)
          "snapshots"
          (.obj (updListMap JVal.pfrag
            (updListMap JVal.afrag [] d.average_snapshots_.entries)
            d.pershot_snapshots_.entries)),
        updListMap JVal.pfrag
          (updListMap JVal.afrag [] d.average_snapshots_.entries)
          d.pershot_snapshots_.entries, hjs2, ?_, ?_⟩
      · rw [find_setE]
        simp
      · rw [find_updListMap JVal.pfrag d.pershot_snapshots_.entries
          d.pershot_snapshots_.nodup_keys _ kind,
          show find d.pershot_snapshots_.entries kind = some p from hp]

/-- Claim C10 (amended): export preserves unrelated document content.  For an
enabled container and a successful export into an object document, every
top-level key that is neither an extras key nor `"snapshots"` keeps its prior
value; and provided `"snapshots"` is not itself an extras key of the
container, every entry under `js["snapshots"]` whose kind is in neither
snapshot map keeps its prior value.  (The proviso is forced: an extras entry
named `"snapshots"` is written over the whole `"snapshots"` object by the
first export loop, see the counterexample.) -/
theorem C10_export_frame {T P A : Type} (d : DataContainer T P A)
    (m : List (String × JVal T P A)) (js2 : JVal T P A)
    (hen : d.enabled_ = true)
    (hok : to_json (.obj m) d = .ok js2) :
    ∃ m2, js2 = .obj m2 ∧
      (∀ k, k ≠ "snapshots" → d.additional_data_.lookup k = none →
        find m2 k = find m k) ∧
      (d.additional_data_.lookup "snapshots" = none →
        ∀ sm, find m "snapshots" = some (.obj sm) →
        ∀ kind, d.pershot_snapshots_.lookup kind = none →
          d.average_snapshots_.lookup kind = none →
        ∃ sm2, find m2 "snapshots" = some (.obj sm2) ∧
          find sm2 kind = find sm kind) := by
  have h1 := writeAdds_obj d.additional_data_.entries m
  cases h2 : writeSnaps JVal.afrag
      (.obj (updListMap JVal.prim m d.additional_data_.entries))
      d.average_snapshots_.entries with
  | error e =>
      rw [to_json_err2 d _ _ e hen h1 h2] at hok
      exact Except.noConfusion hok
  | ok js1 =>
      have hmain := to_json_stages d (.obj m) _ _ hen h1 h2
      rw [hmain] at hok
      obtain ⟨mA, hA, frameA⟩ := writeSnaps_frame JVal.afrag
        d.average_snapshots_.entries _ js1 h2
      subst hA
      obtain ⟨m2, h2eq, frameP⟩ := writeSnaps_frame JVal.pfrag
        d.pershot_snapshots_.entries mA js2 hok
      refine ⟨m2, h2eq, ?_, ?_⟩
      · intro k hk hnone
        rw [frameP k hk, frameA k hk]
        rw [find_updListMap JVal.prim d.additional_data_.entries
          d.additional_data_.nodup_keys m k,
          show find d.additional_data_.entries k = none from hnone]
      · intro hsnap sm hsm kind hkp hka
        have hm1snap : find (updListMap JVal.prim m
            d.additional_data_.entries) "snapshots" = some (.obj sm) := by
          rw [find_updListMap JVal.prim d.additional_data_.entries
            d.additional_data_.nodup_keys m "snapshots",
            show find d.additional_data_.entries "snapshots" = none
              from hsnap]
          exact hsm
        have h2b := writeSnaps_obj JVal.afrag d.average_snapshots_.entries
          (updListMap JVal.prim m d.additional_data_.entries) sm hm1snap
        have hmA : mA = setE (updListMap JVal.prim m
            d.additional_data_.entries) "snapshots"
            (.obj (updListMap JVal.afrag sm d.average_snapshots_.entries)) :=
          JVal.obj.inj (Except.ok.inj (h2.symm.trans h2b))
        have hmAsnap : find mA "snapshots" =
            some (.obj (updListMap JVal.afrag sm
              d.average_snapshots_.entries)) := by
          rw [hmA, find_setE]
          simp
        have h3 := writeSnaps_obj JVal.pfrag d.pershot_snapshots_.entries
          mA (updListMap JVal.afrag sm d.average_snapshots_.entries) hmAsnap
        have hm2 : m2 = setE mA "snapshots"
            (.obj (updListMap JVal.pfrag
              (updListMap JVal.afrag sm d.average_snapshots_.entries)
              d.pershot_snapshots_.entries)) := by
          have h4 := hok.symm.trans h3
          rw [h2eq] at h4
          exact JVal.obj.inj (Except.ok.inj h4)
        refine ⟨updListMap JVal.pfrag
            (updListMap JVal.afrag sm d.average_snapshots_.entries)
            d.pershot_snapshots_.entries, ?_, ?_⟩
        · rw [hm2, find_setE]
          simp
        · rw [find_updListMap JVal.pfrag d.pershot_snapshots_.entries
            d.pershot_snapshots_.nodup_keys _ kind,
            show find d.pershot_snapshots_.entries kind = none from hkp]
          rw [find_updListMap JVal.afrag d.average_snapshots_.entries
            d.average_snapshots_.nodup_keys sm kind,
            show find d.average_snapshots_.entries kind = none from hka]

/-!
Concrete instances for the witnesses: the payload and both snapshot types
are `Nat`, with addition as the snapshot merge (associative, commutative,
and the default-constructed value `0` is its identity).
-/

def pops0 : PershotOps Nat Nat := ⟨0, fun p _ t => p + t, Nat.add⟩

def aops0 : AverageOps Nat Nat := ⟨0, fun a _ _ t _ => a + t, Nat.add⟩

def cA : DataContainer Nat Nat Nat :=
  ⟨SMap.empty.set "x" 1, SMap.empty.set "pa" 10, SMap.empty, true⟩

def cB : DataContainer Nat Nat Nat :=
  ⟨SMap.empty.set "x" 2, SMap.empty, SMap.empty.set "aa" 20, true⟩

def cC : DataContainer Nat Nat Nat :=
  ⟨SMap.empty.set "y" 3, SMap.empty, SMap.empty, true⟩

/-- A disabled container with data in all three maps. -/
def cD : DataContainer Nat Nat Nat :=
  ⟨SMap.empty.set "x" 1, SMap.empty.set "pa" 10, SMap.empty.set "aa" 20,
    false⟩

theorem C1_witness :
    (DataContainer.combine_copy pops0 aops0
        (DataContainer.combine_copy pops0 aops0 cA cB).1 cC).1 =
      (DataContainer.combine_copy pops0 aops0 cA
        (DataContainer.combine_copy pops0 aops0 cB cC).1).1 ∧
    ∀ js, to_json js
        (DataContainer.combine_copy pops0 aops0
          (DataContainer.combine_copy pops0 aops0 cA cB).1 cC).1 =
      to_json js
        (DataContainer.combine_copy pops0 aops0 cA
          (DataContainer.combine_copy pops0 aops0 cB cC).1).1 :=
  C1_combine_assoc pops0 aops0
    (fun x y z => Nat.add_assoc x y z) (fun x y => Nat.add_comm x y)
    (fun x => Nat.zero_add x)
    (fun x y z => Nat.add_assoc x y z) (fun x y => Nat.add_comm x y)
    (fun x => Nat.zero_add x)
    cA cB cC
    (fun _ => ⟨Or.inr rfl, Or.inr rfl, Or.inl rfl⟩)
    (fun _ => ⟨Or.inl rfl, Or.inl rfl, Or.inr rfl⟩)

theorem C3_witness :
    cD.add_additional_data "k" 5 = cD ∧
    DataContainer.add_pershot_snapshot pops0 cD "t" "l" 6 = cD ∧
    DataContainer.add_average_snapshot aops0 cD "t" "l" "m" 7 true = cD :=
  C3_gating pops0 aops0 cD rfl "k" "t" "l" "m" 5 6 7 true

theorem C6_witness :
    to_json (JVal.obj [("keep", JVal.null)] : JVal Nat Nat Nat) cD =
      .ok (.obj [("keep", .null)]) :=
  C6_disabled_export cD rfl (JVal.obj [("keep", JVal.null)])

/-- An enabled container holding kind `"k"` in both snapshot maps. -/
def d9 : DataContainer Nat Nat Nat :=
  ⟨SMap.empty, SMap.empty.set "k" 5, SMap.empty.set "k" 7, true⟩

theorem C9_witness :
    ∃ m sm,
      (JVal.obj [("snapshots", JVal.obj [("k", JVal.pfrag 5)])] :
          JVal Nat Nat Nat) = .obj m ∧
      find m "snapshots" = some (.obj sm) ∧
      find sm "k" = some (.pfrag 5) :=
  C9_export_collision d9 "k" 5 7
    (JVal.obj [("snapshots", JVal.obj [("k", JVal.pfrag 5)])])
    rfl rfl rfl rfl

/-- An enabled container whose extras map contains the key `"snapshots"`. -/
def d10 : DataContainer Nat Nat Nat :=
  ⟨SMap.empty.set "snapshots" 7, SMap.empty, SMap.empty, true⟩

/-- A pre-existing document with an entry `"x"` under `"snapshots"`. -/
def js10 : JVal Nat Nat Nat := .obj [("snapshots", .obj [("x", .null)])]

/-- Counterexample to claim C10 as stated: `d10` is enabled, its snapshot
maps do not contain the kind `"x"`, the pre-existing document `js10` holds
the entry `"x"` under `"snapshots"`, and the export completes normally — yet
the exported document's `"snapshots"` member is the extras value `prim 7`,
not an object still containing that entry: the first export loop wrote the
extras entry named `"snapshots"` over the whole `"snapshots"` object. -/
theorem C10_counterexample :
    to_json js10 d10 = .ok (.obj [("snapshots", .prim 7)]) ∧
    d10.enabled_ = true ∧
    d10.pershot_snapshots_.lookup "x" = none ∧
    d10.average_snapshots_.lookup "x" = none ∧
    find [("snapshots", (JVal.obj [("x", JVal.null)] : JVal Nat Nat Nat))]
      "snapshots" = some (.obj [("x", .null)]) ∧
    ¬ ∃ sm2, find [("snapshots", (JVal.prim 7 : JVal Nat Nat Nat))]
      "snapshots" = some (JVal.obj sm2) ∧ find sm2 "x" = some JVal.null := by
  refine ⟨rfl, rfl, rfl, rfl, rfl, ?_⟩
  rintro ⟨sm2, h1, h2⟩
  rw [show find [("snapshots", (JVal.prim 7 : JVal Nat Nat Nat))]
      "snapshots" = some (JVal.prim 7) from rfl] at h1
  exact JVal.noConfusion (Option.some.inj h1)

/-- An enabled container with one extras entry and one pershot kind. -/
def dW : DataContainer Nat Nat Nat :=
  ⟨SMap.empty.set "e" 1, SMap.empty.set "pk" 2, SMap.empty, true⟩

/-- A pre-existing document with an unrelated top-level key and an unrelated
entry under `"snapshots"`. -/
def mW : List (String × JVal Nat Nat Nat) :=
  [("keep", .null), ("snapshots", .obj [("old", .null)])]

theorem C10_witness :
    ∃ m2,
      (JVal.obj [("keep", JVal.null),
          ("snapshots", JVal.obj [("old", JVal.null), ("pk", JVal.pfrag 2)]),
          ("e", JVal.prim 1)] : JVal Nat Nat Nat) = .obj m2 ∧
      (∀ k, k ≠ "snapshots" → dW.additional_data_.lookup k = none →
        find m2 k = find mW k) ∧
      (dW.additional_data_.lookup "snapshots" = none →
        ∀ sm, find mW "snapshots" = some (.obj sm) →
        ∀ kind, dW.pershot_snapshots_.lookup kind = none →
          dW.average_snapshots_.lookup kind = none →
        ∃ sm2, find m2 "snapshots" = some (.obj sm2) ∧
          find sm2 kind = find sm kind) :=
  C10_export_frame dW mW
    (JVal.obj [("keep", JVal.null),
      ("snapshots", JVal.obj [("old", JVal.null), ("pk", JVal.pfrag 2)]),
      ("e", JVal.prim 1)])
    rfl rfl

end AER
